import Mathlib

/-!
Shallow embedding of the key-binding notation parser from
`src/config/keys/sequence.rs` (struct `Parser` and its methods `new`,
`parse`, `chord_to_key`, `chord`), together with theorems settling the
frozen claims about it.

Conventions of the embedding:
* Rust `char` is Lean `Char`; the input string is a `List Char`.
* Machine indices are `Nat`; Rust `saturating_sub` is `Nat` subtraction.
* A Rust panic (failed `assert!` or out-of-bounds index) is modelled as an
  explicit `abort` outcome carrying the kind of panic, distinct from the
  recoverable `anyhow` error results, which are modelled by `err`.
* `char::is_uppercase` is modelled on the ASCII range, which covers every
  character class the notation grammar distinguishes.
-/

namespace Rmpc

/-- Key identities, from `crossterm::event::KeyCode` (only the variants the
parser produces). -/
inductive KeyCode where
  | Char (c : Char)
  | Backspace
  | BackTab
  | Tab
  | Enter
  | Left
  | Right
  | Up
  | Down
  | Home
  | End
  | PageUp
  | PageDown
  | Delete
  | Insert
  | Esc
  | F (n : Nat)
  | Null
deriving DecidableEq, Repr

/-- Modifier set, from `crossterm::event::KeyModifiers` (the three flags the
parser uses, as one boolean per flag). -/
structure KeyModifiers where
  control : Bool
  alt : Bool
  shift : Bool
deriving DecidableEq, Repr

/-- The empty modifier set, `KeyModifiers::NONE`. -/
def KeyModifiers.NONE : KeyModifiers := ⟨false, false, false⟩

/-- One key press: identity plus modifier set (`super::Key`). -/
structure Key where
  key : KeyCode
  modifiers : KeyModifiers
deriving DecidableEq, Repr

/-- The kinds of process aborts (panics) the source can hit: the
`assert!(self.idx < chars.len(), "unterminated chord")` in `Parser::chord`,
an out-of-bounds index (`chars[self.idx]` in the chord loop, `skip_last[0]`
in `chord_to_key`), and an out-of-range slice (`&chars[1..]` on an empty
slice).  `fuelExhausted` is an artifact of the fuel-based loop encoding and
is unreachable from `parse` (see `parseLoop`). -/
inductive PanicKind where
  | unterminatedChord
  | indexOutOfBounds
  | sliceOutOfRange
  | fuelExhausted
deriving DecidableEq, Repr

/-- The recoverable `anyhow` errors the source produces: the
`ensure!(!input.is_empty(), ...)` in `Parser::new` and the
`ensure!(rest.len() == 1, "Invalid key: '{rest}' from input '{chars}'")`
in `Parser::chord_to_key`, which carries the leftover text and the whole
chord. -/
inductive RunError where
  | emptyInput
  | invalidKey (rest : List Char) (chord : List Char)
deriving DecidableEq, Repr

/-- Result of a computation that can return, fail recoverably, or panic. -/
inductive Outcome (α : Type) where
  | ok (a : α)
  | err (e : RunError)
  | abort (k : PanicKind)
deriving DecidableEq, Repr

/-- Result of the chord boundary scan `Parser::chord`: the index of the
matching `>` (the range start is the caller's cursor), or a panic. -/
inductive ChordSpan where
  | ok (last : Nat)
  | abort (k : PanicKind)
deriving DecidableEq, Repr

/-- ASCII model of `char::is_uppercase`, the uppercase test used at
`sequence.rs:46` and `sequence.rs:141`. -/
def rust_is_uppercase (c : Char) : Bool :=
  65 ≤ c.toNat && c.toNat ≤ 90

/-- ASCII lowercase letters (claim C5's character class). -/
def isLowerLetter (c : Char) : Bool :=
  97 ≤ c.toNat && c.toNat ≤ 122

/-- ASCII digits (claim C5's character class). -/
def isDigitChar (c : Char) : Bool :=
  48 ≤ c.toNat && c.toNat ≤ 57

/-- ASCII punctuation: printable, neither a letter nor a digit (claim C5's
character class). -/
def isPunctChar (c : Char) : Bool :=
  33 ≤ c.toNat && c.toNat ≤ 126 &&
    !(rust_is_uppercase c) && !(isLowerLetter c) && !(isDigitChar c)

/-- The modifier-prefix loop of `Parser::chord_to_key` (sequence.rs:69-92):
repeatedly consume `C-` / `A-` / `S-` from the front, folding the flag into
the accumulator; stop at the first position that is none of the three. -/
def stripMods : List Char → KeyModifiers → KeyModifiers × List Char
  | 'C' :: '-' :: rest, m => stripMods rest { m with control := true }
  | 'A' :: '-' :: rest, m => stripMods rest { m with alt := true }
  | 'S' :: '-' :: rest, m => stripMods rest { m with shift := true }
  | l, m => (m, l)

/-- Whether a position starts with one of the three modifier prefixes
recognised by the loop at sequence.rs:76-90. -/
def isModifierToken : List Char → Bool
  | 'C' :: '-' :: _ => true
  | 'A' :: '-' :: _ => true
  | 'S' :: '-' :: _ => true
  | _ => false

/-- The named-key arms of the `match skip_last` at sequence.rs:100-136, in
source order.  All arms are pairwise-distinct list literals (the guarded
`Tab` arms, the empty arm and the single-character fallback are handled
separately in `lookupKey`), so the first-match semantics of the Rust
`match` coincides with an ordered association-list lookup. -/
def namedKeys : List (List Char × KeyCode) := [
  (['B', 'S'], .Backspace),
  (['B', 'a', 'c', 'k', 's', 'p', 'a', 'c', 'e'], .Backspace),
  (['E', 'n', 't', 'e', 'r'], .Enter),
  (['C', 'R'], .Enter),
  (['R', 'e', 't', 'u', 'r', 'n'], .Enter),
  (['B', 's', 'l', 'a', 's', 'h'], .Char (Char.ofNat 92)),
  (['B', 'a', 'r'], .Char '|'),
  (['l', 't'], .Char '<'),
  (['g', 't'], .Char '>'),
  (['L', 'e', 'f', 't'], .Left),
  (['R', 'i', 'g', 'h', 't'], .Right),
  (['U', 'p'], .Up),
  (['D', 'o', 'w', 'n'], .Down),
  (['H', 'o', 'm', 'e'], .Home),
  (['E', 'n', 'd'], .End),
  (['P', 'a', 'g', 'e', 'U', 'p'], .PageUp),
  (['P', 'a', 'g', 'e', 'D', 'o', 'w', 'n'], .PageDown),
  (['D', 'e', 'l'], .Delete),
  (['I', 'n', 's', 'e', 'r', 't'], .Insert),
  (['E', 's', 'c'], .Esc),
  (['S', 'p', 'a', 'c', 'e'], .Char ' '),
  (['F', '1'], .F 1),
  (['F', '2'], .F 2),
  (['F', '3'], .F 3),
  (['F', '4'], .F 4),
  (['F', '5'], .F 5),
  (['F', '6'], .F 6),
  (['F', '7'], .F 7),
  (['F', '8'], .F 8),
  (['F', '9'], .F 9),
  (['F', '1', '0'], .F 10),
  (['F', '1', '1'], .F 11),
  (['F', '1', '2'], .F 12)]

/-- The `match skip_last` of `Parser::chord_to_key` (sequence.rs:100-147):
the two guarded `Tab`/`BackTab` arms, the named-key literal arms
(`namedKeys`), the `[] => Null` arm, and the single-character fallback with
its `ensure!(rest.len() == 1, ...)` error.  `chars` is the full chord text,
carried only into the error. -/
def lookupKey (rest : List Char) (chars : List Char) (modifiers : KeyModifiers) :
    Outcome Key :=
  if rest = ['T', 'a', 'b'] then
    .ok ⟨if modifiers.shift then KeyCode.BackTab else KeyCode.Tab, modifiers⟩
  else
    match namedKeys.lookup rest with
    | some code => .ok ⟨code, modifiers⟩
    | none =>
      match rest with
      | [] => .ok ⟨KeyCode.Null, modifiers⟩
      | c :: cs =>
        if (c :: cs).length = 1 then
          .ok ⟨KeyCode.Char c,
            if rust_is_uppercase c then
              ⟨modifiers.control, modifiers.alt, true⟩
            else modifiers⟩
        else .err (.invalidKey (c :: cs) chars)

/-- Whether `rest` hits one of the non-fallback arms of the `match` (a
named key, the guarded `Tab` arms, or the empty arm). -/
def isTableName (rest : List Char) : Bool :=
  rest == ['T', 'a', 'b'] || (namedKeys.lookup rest).isSome || rest == []

/-- Model of `Parser::chord_to_key` (sequence.rs:61-149).  `&chars[1..]` panics when
the chord slice is empty; `skip_last[..len-1]` is a saturating take; the
bare `skip_last[0]` at sequence.rs:95 panics when nothing remains after the
modifier prefixes; when the remainder starts with `<`, one more level of
brackets is stripped (sequence.rs:94-98) before the table lookup. -/
def chord_to_key (chars : List Char) : Outcome Key :=
  match chars with
  | [] => .abort .sliceOutOfRange
  | _ :: skip_first =>
    match stripMods (skip_first.take (skip_first.length - 1)) KeyModifiers.NONE with
    | (_, []) => .abort .indexOutOfBounds
    | (modifiers, c :: tail) =>
      lookupKey (if c = '<' then tail.take (tail.length - 1) else c :: tail)
        chars modifiers

/-- The body of the `loop` in `Parser::chord` (sequence.rs:160-172), acting
on the characters after the current cursor: the loop first advances the
cursor and only then reads and tests the character, so the element at the
old cursor is never compared.  Returns the offset of the `>` that brings
the nesting counter to zero, or `none` when the read runs past the end of
the input (the `chars[self.idx]` panic). -/
def scanChord : List Char → Nat → Option Nat
  | [], _ => none
  | c :: rest, openCount =>
    if c = '>' then
      if openCount = 1 then some 0
      else Option.map (· + 1) (scanChord rest (openCount - 1))
    else if c = '<' then Option.map (· + 1) (scanChord rest (openCount + 1))
    else Option.map (· + 1) (scanChord rest openCount)

/-- Model of `Parser::chord` (sequence.rs:151-175) with the cursor at `idx` (the
opening `<`).  The cursor moves to `idx + 1` and the
`assert!(self.idx < chars.len(), "unterminated chord")` fires when that is
out of range; otherwise the loop starts reading at `idx + 2` (the
character at `idx + 1` is loaded at sequence.rs:158 but never compared).
Returns the index of the matching `>`. -/
def chord (chars : List Char) (idx : Nat) : ChordSpan :=
  if idx + 1 < chars.length then
    match scanChord (chars.drop (idx + 2)) 1 with
    | some d => .ok (idx + 2 + d)
    | none => .abort .indexOutOfBounds
  else .abort .unterminatedChord

/-- The inclusive slice `&chars[s..=e]`. -/
def sliceIncl (l : List Char) (s e : Nat) : List Char :=
  (l.drop s).take (e + 1 - s)

/-- The `loop` of `Parser::parse` (sequence.rs:33-56).  `modifiers` is the
single accumulator declared before the loop at sequence.rs:30: it is
threaded on unchanged past chord tokens and is only ever extended (never
reset) by uppercase plain characters.  `fuel` bounds the iteration count to
make the recursion structural; every iteration advances `idx` by at least
one, so starting `fuel` at `chars.length` (as `parse` does) the
`fuelExhausted` branch is unreachable. -/
def parseLoop (chars : List Char) (fuel idx : Nat) (modifiers : KeyModifiers) :
    Outcome (List Key) :=
  if h : idx < chars.length then
    match fuel with
    | 0 => .abort .fuelExhausted
    | fuel + 1 =>
      let c := chars.get ⟨idx, h⟩
      if c = '<' then
        match chord chars idx with
        | .abort k => .abort k
        | .ok e =>
          match chord_to_key (sliceIncl chars idx e) with
          | .err er => .err er
          | .abort k => .abort k
          | .ok key =>
            match parseLoop chars fuel (e + 1) modifiers with
            | .ok keys => .ok (key :: keys)
            | r => r
      else
        let m2 := if rust_is_uppercase c then
            ⟨modifiers.control, modifiers.alt, true⟩
          else modifiers
        match parseLoop chars fuel (idx + 1) m2 with
        | .ok keys => .ok (⟨KeyCode.Char c, m2⟩ :: keys)
        | r => r
  else .ok []

/-- Model of `Parser::new` followed by `Parser::parse` (sequence.rs:22-59): reject
the empty input (`ensure!(!input.is_empty(), ...)`), then run the scan loop
from cursor 0 with the empty modifier accumulator. -/
def parse (input : List Char) : Outcome (List Key) :=
  if input.isEmpty then .err .emptyInput
  else parseLoop input input.length 0 KeyModifiers.NONE

/-- Running nesting counter over a character list: `>` decrements, `<`
increments, anything else leaves it unchanged (the counting discipline of
sequence.rs:164-171), over `Int` so that the count is meaningful on every
prefix. -/
def nestCount : List Char → Int → Int
  | [], n => n
  | c :: rest, n =>
    nestCount rest (if c = '>' then n - 1 else if c = '<' then n + 1 else n)
/-!
Helper lemmas shared by the claim theorems.
-/

/-- Taking exactly the length of the left part of an append returns it. -/
theorem take_len_append (l t : List Char) : (l ++ t).take l.length = l := by
  induction l with
  | nil => rfl
  | cons a l ih => simp [ih]

/-- When the remainder hits a non-fallback arm, the resolved key does not
depend on the full chord text (which is only carried into the error). -/
theorem lookupKey_chars_irrelevant (rest a b : List Char) (m : KeyModifiers)
    (htab : isTableName rest = true) :
    lookupKey rest a m = lookupKey rest b m := by
  by_cases ht : rest = ['T', 'a', 'b']
  · simp [lookupKey, ht]
  · unfold lookupKey
    rw [if_neg ht, if_neg ht]
    cases hcode : namedKeys.lookup rest with
    | some code => rfl
    | none =>
      rw [isTableName] at htab
      simp [ht, hcode] at htab
      subst htab
      rfl

/-- The modifier loop stops (returning the accumulator and the rest
unchanged) exactly at a position that is not one of the three prefixes. -/
theorem stripMods_fallthrough (l : List Char) (m : KeyModifiers)
    (h : isModifierToken l = false) : stripMods l m = (m, l) := by
  rw [stripMods.eq_def]
  split
  · simp [isModifierToken] at h
  · simp [isModifierToken] at h
  · simp [isModifierToken] at h
  · rfl

/-- A single plain (non-`<`) character parses to itself, with SHIFT exactly
when it is uppercase. -/
theorem parse_single (c : Char) (hc : c ≠ '<') :
    parse [c] = .ok [⟨KeyCode.Char c,
      if rust_is_uppercase c then ⟨false, false, true⟩ else KeyModifiers.NONE⟩] := by
  cases hup : rust_is_uppercase c <;>
    simp [parse, parseLoop, hc, hup, KeyModifiers.NONE]

/-- One step of the chord scan: when the head character updates the live
counter `n` to `n'` without hitting zero, the scan result shifts by one and
the nesting-counter characterization transfers from the tail. -/
theorem scanChord_cons_aux (c : Char) (rest : List Char) (n n' : Nat)
    (h1 : 1 ≤ n')
    (h2 : scanChord (c :: rest) n = Option.map (· + 1) (scanChord rest n'))
    (h3 : (if c = '>' then (n : Int) - 1 else if c = '<' then (n : Int) + 1
      else (n : Int)) = (n' : Int))
    (ih : ∀ d, (scanChord rest n' = some d ↔ d < rest.length ∧
      nestCount (rest.take (d + 1)) (n' : Int) = 0 ∧
      ∀ j < d, nestCount (rest.take (j + 1)) (n' : Int) ≠ 0))
    (d : Nat) :
    scanChord (c :: rest) n = some d ↔ d < (c :: rest).length ∧
      nestCount ((c :: rest).take (d + 1)) (n : Int) = 0 ∧
      ∀ j < d, nestCount ((c :: rest).take (j + 1)) (n : Int) ≠ 0 := by
  have key : ∀ k, nestCount ((c :: rest).take (k + 1)) (n : Int) =
      nestCount (rest.take k) (n' : Int) := by
    intro k
    rw [List.take_succ_cons]
    show nestCount (rest.take k)
      (if c = '>' then (n : Int) - 1 else if c = '<' then (n : Int) + 1
        else (n : Int)) = _
    rw [h3]
  rw [h2]
  constructor
  · intro h
    rw [Option.map_eq_some'] at h
    obtain ⟨a, ha, hd⟩ := h
    subst hd
    obtain ⟨hlt, hz, hall⟩ := (ih a).mp ha
    refine ⟨by simp only [List.length_cons]; omega, ?_, ?_⟩
    · rw [key (a + 1)]
      exact hz
    · intro j hj
      cases j with
      | zero =>
        rw [key 0]
        show (n' : Int) ≠ 0
        omega
      | succ j' =>
        rw [key (j' + 1)]
        exact hall j' (by omega)
  · rintro ⟨hlt, hz, hall⟩
    cases d with
    | zero =>
      exfalso
      rw [key 0] at hz
      have : (n' : Int) = 0 := hz
      omega
    | succ d' =>
      have hres : scanChord rest n' = some d' := by
        refine (ih d').mpr ⟨?_, ?_, ?_⟩
        · simp only [List.length_cons] at hlt; omega
        · rw [← key (d' + 1)]
          exact hz
        · intro j hj
          have h := hall (j + 1) (by omega)
          rw [key (j + 1)] at h
          exact h
      rw [hres]
      rfl

/-- Characterization of the chord-scan loop body: starting from a positive
counter, it returns offset `d` exactly when `d` is in range and the running
nesting counter (`>` decrements, `<` increments) first reaches zero on the
prefix ending at `d`. -/
theorem scanChord_some_iff (l : List Char) : ∀ (n : Nat), 1 ≤ n → ∀ (d : Nat),
    (scanChord l n = some d ↔ d < l.length ∧
      nestCount (l.take (d + 1)) (n : Int) = 0 ∧
      ∀ j < d, nestCount (l.take (j + 1)) (n : Int) ≠ 0) := by
  induction l with
  | nil =>
    intro n hn d
    simp [scanChord]
  | cons c rest ih =>
    intro n hn d
    by_cases hgt : c = '>'
    · subst hgt
      by_cases h1 : n = 1
      · subst h1
        have hval : scanChord ('>' :: rest) 1 = some 0 := by simp [scanChord]
        rw [hval]
        cases d with
        | zero =>
          constructor
          · intro _
            refine ⟨by simp, ?_, by omega⟩
            show (((1 : Nat) : Int) - 1) = 0
            omega
          · intro _
            rfl
        | succ d' =>
          constructor
          · intro h
            exact absurd h (by simp)
          · rintro ⟨-, -, hall⟩
            exfalso
            refine hall 0 (by omega) ?_
            show (((1 : Nat) : Int) - 1) = 0
            omega
      · exact scanChord_cons_aux '>' rest n (n - 1) (by omega)
          (by simp [scanChord, h1]) (by simp; omega)
          (fun d => ih (n - 1) (by omega) d) d
    · by_cases hlt2 : c = '<'
      · subst hlt2
        exact scanChord_cons_aux '<' rest n (n + 1) (by omega)
          (by simp [scanChord]) (by simp)
          (fun d => ih (n + 1) (by omega) d) d
      · exact scanChord_cons_aux c rest n n hn
          (by simp [scanChord, hgt, hlt2]) (by simp [hgt, hlt2])
          (fun d => ih n hn d) d

/-!
The claim theorems.
-/

/-- C1: the claim says an unterminated chord must fail with a recoverable
`UnterminatedChord` error and never abort the process.  The code instead
panics: on `<C-t` the scan loop indexes past the end of the input, and on a
bare `<` the `assert!` fires; no error value is ever returned to the
caller. -/
theorem c1_unterminated_chord_aborts :
    parse ['<', 'C', '-', 't'] = .abort .indexOutOfBounds ∧
    parse ['<'] = .abort .unterminatedChord := ⟨rfl, rfl⟩

/-- C2: the claim says the modifier accumulator is reset between tokens.
The code declares one accumulator outside the scan loop, so the SHIFT
inferred from the uppercase plain character `A` persists into the following
plain character: `Ab` parses with SHIFT on both keys, although `b` alone
parses with no modifiers — parsing a concatenation is not the concatenation
of the parses. -/
theorem c2_modifier_accumulator_persists :
    parse ['A', 'b'] =
      .ok [⟨KeyCode.Char 'A', ⟨false, false, true⟩⟩,
        ⟨KeyCode.Char 'b', ⟨false, false, true⟩⟩] ∧
    parse ['A'] = .ok [⟨KeyCode.Char 'A', ⟨false, false, true⟩⟩] ∧
    parse ['b'] = .ok [⟨KeyCode.Char 'b', KeyModifiers.NONE⟩] := ⟨rfl, rfl, rfl⟩

/-- C3 counterexample: with the cursor on the opening `<` of `<>`, the
boundary scan does not return the span ending at the immediately following
`>` (index 1); it panics, because the character right after the opening `<`
is never compared by the loop. -/
theorem c3_counterexample :
    chord ['<', '>'] 0 = .abort PanicKind.indexOutOfBounds ∧
    chord ['<', '>'] 0 ≠ .ok 1 := ⟨rfl, by decide⟩

/-- C3 (amended): the boundary scan maintains a nesting counter starting at
one, but it only examines characters from two positions after the opening
`<` onward (the character immediately after the opening `<` is read for an
assertion yet never compared, so it neither closes nor nests).  From there
every `>` decrements and every `<` increments the counter, and the span
returned runs through exactly the first examined `>` that brings the
counter to zero; if the input ends first, or ends right after the `<`, the
scan aborts. -/
theorem c3_chord_span_characterization (chars : List Char) (idx e : Nat) :
    chord chars idx = .ok e ↔
      idx + 1 < chars.length ∧
      ∃ d, e = idx + 2 + d ∧ d < (chars.drop (idx + 2)).length ∧
        nestCount ((chars.drop (idx + 2)).take (d + 1)) 1 = 0 ∧
        ∀ j < d, nestCount ((chars.drop (idx + 2)).take (j + 1)) 1 ≠ 0 := by
  have hcast : ((1 : Nat) : Int) = 1 := by norm_num
  unfold chord
  by_cases h : idx + 1 < chars.length
  · rw [if_pos h]
    cases hs : scanChord (chars.drop (idx + 2)) 1 with
    | some d0 =>
      constructor
      · intro he
        cases he
        refine ⟨h, d0, rfl, ?_⟩
        have hmp := (scanChord_some_iff _ 1 (by omega) d0).mp hs
        rw [hcast] at hmp
        exact hmp
      · rintro ⟨-, d, rfl, hrest⟩
        rw [← hcast] at hrest
        have hsd : scanChord (chars.drop (idx + 2)) 1 = some d :=
          (scanChord_some_iff _ 1 (by omega) d).mpr hrest
        rw [hs] at hsd
        cases hsd
        rfl
    | none =>
      constructor
      · intro he
        exact absurd he (by simp)
      · rintro ⟨-, d, rfl, hrest⟩
        rw [← hcast] at hrest
        have hsd : scanChord (chars.drop (idx + 2)) 1 = some d :=
          (scanChord_some_iff _ 1 (by omega) d).mpr hrest
        rw [hs] at hsd
        exact absurd hsd (by simp)
  · rw [if_neg h]
    constructor
    · intro he
      exact absurd he (by simp)
    · rintro ⟨hh, -⟩
      exact absurd hh h

/-- C3 witness: on `<S-<lt>>` the scan from the opening `<` returns the
span ending at the final `>` (index 7), as the characterization demands. -/
theorem c3_witness : chord ['<', 'S', '-', '<', 'l', 't', '>', '>'] 0 = .ok 7 :=
  (c3_chord_span_characterization ['<', 'S', '-', '<', 'l', 't', '>', '>'] 0 7).mpr
    ⟨by decide, 5, by decide, by decide, by decide, by decide⟩

/-- C4 counterexample: the claim says a modifier-only chord such as `<C->`
resolves to a Null key with the accumulated modifiers; the resolver instead
panics on the unchecked `skip_last[0]` index once the modifier prefixes
have consumed the whole body. -/
theorem c4_counterexample :
    chord_to_key ['<', 'C', '-', '>'] = .abort PanicKind.indexOutOfBounds ∧
    chord_to_key ['<', 'C', '-', '>'] ≠
      .ok ⟨KeyCode.Null, ⟨true, false, false⟩⟩ := ⟨rfl, by decide⟩

/-- C4 (amended): the resolver's table does map an empty remainder to a
Null key with the accumulated modifiers, but that arm is reachable only
through the one-level bracket unwrap (`<C-<>>` gives Null with CONTROL,
`<<>` gives Null with no modifiers); a chord whose remainder is empty
directly after modifier stripping, such as `<C->` or the bare `<>`,
crashes on an unchecked index instead of resolving. -/
theorem c4_null_key_via_unwrap :
    chord_to_key ['<', 'C', '-', '<', '>', '>'] =
      .ok ⟨KeyCode.Null, ⟨true, false, false⟩⟩ ∧
    chord_to_key ['<', '<', '>'] = .ok ⟨KeyCode.Null, KeyModifiers.NONE⟩ ∧
    chord_to_key ['<', '>'] = .abort PanicKind.indexOutOfBounds ∧
    chord_to_key ['<', 'C', '-', '>'] = .abort PanicKind.indexOutOfBounds :=
  ⟨rfl, rfl, rfl, rfl⟩

/-- C5: a single-character notation string parses to one Key with that
character's identity: an uppercase letter gets SHIFT (case preserved), a
lowercase letter, digit, or punctuation character other than `<`, `>`,
backslash, and bar (codes 60, 62, 92, 124) gets the empty modifier set. -/
theorem c5_single_character (c : Char) :
    (rust_is_uppercase c = true →
        parse [c] = .ok [⟨KeyCode.Char c, ⟨false, false, true⟩⟩]) ∧
    (isLowerLetter c = true ∨ isDigitChar c = true ∨
        (isPunctChar c = true ∧ c.toNat ≠ 60 ∧ c.toNat ≠ 62 ∧
          c.toNat ≠ 92 ∧ c.toNat ≠ 124) →
        parse [c] = .ok [⟨KeyCode.Char c, KeyModifiers.NONE⟩]) := by
  constructor
  · intro hup
    have h60 : c.toNat ≠ 60 := by
      simp [rust_is_uppercase] at hup; omega
    have hc : c ≠ '<' := by
      intro h; subst h; exact h60 rfl
    rw [parse_single c hc, hup]
    rfl
  · intro hcl
    have hnup : rust_is_uppercase c = false := by
      rcases hcl with h | h | ⟨h, -⟩
      · simp [isLowerLetter] at h; simp [rust_is_uppercase]; omega
      · simp [isDigitChar] at h; simp [rust_is_uppercase]; omega
      · simp [isPunctChar] at h; tauto
    have h60 : c.toNat ≠ 60 := by
      rcases hcl with h | h | ⟨-, h, -⟩
      · simp [isLowerLetter] at h; omega
      · simp [isDigitChar] at h; omega
      · exact h
    have hc : c ≠ '<' := by
      intro h; subst h; exact h60 rfl
    rw [parse_single c hc, hnup]
    rfl

/-- C5 witness: `Q` parses to SHIFT plus `Q`; `.` parses with no
modifiers. -/
theorem c5_witness :
    parse ['Q'] = .ok [⟨KeyCode.Char 'Q', ⟨false, false, true⟩⟩] ∧
    parse ['.'] = .ok [⟨KeyCode.Char '.', KeyModifiers.NONE⟩] :=
  ⟨(c5_single_character 'Q').1 (by decide), (c5_single_character '.').2 (by decide)⟩

/-- C6: modifier decoding consumes `C-`, `A-`, `S-` from the front in any
order, folding CONTROL, ALT, SHIFT into the accumulator, and stops at the
first position that is none of the three; `<C-S-F11>` parses to
Function 11 with CONTROL and SHIFT. -/
theorem c6_modifier_decoding :
    (∀ rest m, stripMods ('C' :: '-' :: rest) m =
        stripMods rest ⟨true, m.alt, m.shift⟩) ∧
    (∀ rest m, stripMods ('A' :: '-' :: rest) m =
        stripMods rest ⟨m.control, true, m.shift⟩) ∧
    (∀ rest m, stripMods ('S' :: '-' :: rest) m =
        stripMods rest ⟨m.control, m.alt, true⟩) ∧
    (∀ l m, isModifierToken l = false → stripMods l m = (m, l)) ∧
    parse ['<', 'C', '-', 'S', '-', 'F', '1', '1', '>'] =
      .ok [⟨KeyCode.F 11, ⟨true, false, true⟩⟩] :=
  ⟨fun _ _ => rfl, fun _ _ => rfl, fun _ _ => rfl, stripMods_fallthrough, rfl⟩

/-- C6 witness: decoding stops at `F11`, which starts with none of the
three prefixes, leaving the accumulator untouched. -/
theorem c6_witness :
    stripMods ['F', '1', '1'] KeyModifiers.NONE =
      (KeyModifiers.NONE, ['F', '1', '1']) :=
  c6_modifier_decoding.2.2.2.1 ['F', '1', '1'] KeyModifiers.NONE (by decide)

/-- C7: the remainder `Tab` resolves to BackTab when SHIFT is already set
and to Tab otherwise; `<S-Tab>` parses to BackTab with SHIFT, `<Tab>` to
Tab with no modifiers. -/
theorem c7_tab_backtab (chars : List Char) (m : KeyModifiers) :
    (m.shift = true → lookupKey ['T', 'a', 'b'] chars m = .ok ⟨KeyCode.BackTab, m⟩) ∧
    (m.shift = false → lookupKey ['T', 'a', 'b'] chars m = .ok ⟨KeyCode.Tab, m⟩) ∧
    parse ['<', 'S', '-', 'T', 'a', 'b', '>'] =
      .ok [⟨KeyCode.BackTab, ⟨false, false, true⟩⟩] ∧
    parse ['<', 'T', 'a', 'b', '>'] = .ok [⟨KeyCode.Tab, KeyModifiers.NONE⟩] := by
  refine ⟨fun h => ?_, fun h => ?_, rfl, rfl⟩
  · simp [lookupKey, h]
  · simp [lookupKey, h]

/-- C7 witness: with SHIFT already accumulated, `Tab` resolves to
BackTab. -/
theorem c7_witness :
    lookupKey ['T', 'a', 'b'] ['<', 'S', '-', 'T', 'a', 'b', '>']
        ⟨false, false, true⟩ = .ok ⟨KeyCode.BackTab, ⟨false, false, true⟩⟩ :=
  (c7_tab_backtab ['<', 'S', '-', 'T', 'a', 'b', '>'] ⟨false, false, true⟩).1 rfl

/-- C8: the literal-delimiter escapes resolve through one extra bracket
unwrap: `<lt>` parses to the literal `<` with no modifiers, and `<S-<lt>>`
to the literal `<` with SHIFT. -/
theorem c8_lt_escape :
    parse ['<', 'l', 't', '>'] = .ok [⟨KeyCode.Char '<', KeyModifiers.NONE⟩] ∧
    parse ['<', 'S', '-', '<', 'l', 't', '>', '>'] =
      .ok [⟨KeyCode.Char '<', ⟨false, false, true⟩⟩] := ⟨rfl, rfl⟩

/-- C9: when the remainder matches no arm of the named-key table and is not
exactly one character, resolution fails with the invalid-key error carrying
the offending text and the original chord; in particular `<tab>` (which
fails the case-sensitive match) parses to that error and produces no
key. -/
theorem c9_invalid_key_name (rest chars : List Char) (m : KeyModifiers)
    (htab : isTableName rest = false) (hlen : rest.length ≠ 1) :
    lookupKey rest chars m = .err (.invalidKey rest chars) ∧
    parse ['<', 't', 'a', 'b', '>'] =
      .err (.invalidKey ['t', 'a', 'b'] ['<', 't', 'a', 'b', '>']) := by
  refine ⟨?_, rfl⟩
  have h1 : ¬ rest = ['T', 'a', 'b'] := by
    intro h; subst h; simp [isTableName] at htab
  have h2 : namedKeys.lookup rest = none := by
    cases hx : namedKeys.lookup rest with
    | none => rfl
    | some v => rw [isTableName, hx] at htab; simp at htab
  have h3 : rest ≠ [] := by
    intro h; subst h; simp [isTableName] at htab
  unfold lookupKey
  rw [if_neg h1, h2]
  cases rest with
  | nil => exact absurd rfl h3
  | cons c cs => simp only [if_neg hlen]

/-- C9 witness: the lowercase name `tab` is not in the table and has three
characters, so it resolves to the invalid-key error. -/
theorem c9_witness :
    lookupKey ['t', 'a', 'b'] ['<', 't', 'a', 'b', '>'] KeyModifiers.NONE =
      .err (.invalidKey ['t', 'a', 'b'] ['<', 't', 'a', 'b', '>']) :=
  (c9_invalid_key_name ['t', 'a', 'b'] ['<', 't', 'a', 'b', '>']
    KeyModifiers.NONE (by decide) (by decide)).1

/-- C10: the one-level bracket unwrap applies whenever the remainder after
modifier stripping begins with `<`, whatever the bracketed content is:
exactly the first and last characters of the remainder are removed before
lookup, so for a named key N the chord `<S-<N>>` resolves to the same Key
as `<S-N>`; in particular `<S-<F5>>` parses to Function 5 with SHIFT. -/
theorem c10_bracket_unwrap (name : List Char)
    (hmod : isModifierToken name = false) (hne : name ≠ [])
    (hhead : name.head? ≠ some '<') (htab : isTableName name = true) :
    chord_to_key ('<' :: 'S' :: '-' :: '<' :: (name ++ ['>', '>'])) =
      chord_to_key ('<' :: 'S' :: '-' :: (name ++ ['>'])) ∧
    parse ['<', 'S', '-', '<', 'F', '5', '>', '>'] =
      .ok [⟨KeyCode.F 5, ⟨false, false, true⟩⟩] := by
  refine ⟨?_, rfl⟩
  have t1 : ('S' :: '-' :: '<' :: (name ++ ['>', '>'])).take
      (('S' :: '-' :: '<' :: (name ++ ['>', '>'])).length - 1) =
      'S' :: '-' :: '<' :: (name ++ ['>']) := by
    have hl : ('S' :: '-' :: '<' :: (name ++ ['>', '>'])).length - 1 =
        name.length + 4 := by simp
    rw [hl]
    show 'S' :: '-' :: '<' :: ((name ++ ['>', '>']).take (name.length + 1)) = _
    rw [show name ++ ['>', '>'] = (name ++ ['>']) ++ ['>'] by simp,
      show name.length + 1 = (name ++ ['>']).length by simp, take_len_append]
  have t2 : ('S' :: '-' :: (name ++ ['>'])).take
      (('S' :: '-' :: (name ++ ['>'])).length - 1) = 'S' :: '-' :: name := by
    have hl : ('S' :: '-' :: (name ++ ['>'])).length - 1 = name.length + 2 := by
      simp
    rw [hl]
    show 'S' :: '-' :: ((name ++ ['>']).take name.length) = _
    rw [take_len_append]
  obtain ⟨c, tl, rfl⟩ := List.exists_cons_of_ne_nil hne
  have hcne : c ≠ '<' := by
    intro h; subst h; simp at hhead
  have hs1 : stripMods ('S' :: '-' :: '<' :: ((c :: tl) ++ ['>']))
      KeyModifiers.NONE = (⟨false, false, true⟩, '<' :: ((c :: tl) ++ ['>'])) := by
    rw [show stripMods ('S' :: '-' :: '<' :: ((c :: tl) ++ ['>'])) KeyModifiers.NONE =
        stripMods ('<' :: ((c :: tl) ++ ['>'])) ⟨false, false, true⟩ from rfl]
    exact stripMods_fallthrough _ _ rfl
  have hs2 : stripMods ('S' :: '-' :: (c :: tl)) KeyModifiers.NONE =
      (⟨false, false, true⟩, c :: tl) := by
    rw [show stripMods ('S' :: '-' :: (c :: tl)) KeyModifiers.NONE =
        stripMods (c :: tl) ⟨false, false, true⟩ from rfl]
    exact stripMods_fallthrough _ _ hmod
  have hL : chord_to_key ('<' :: 'S' :: '-' :: '<' :: ((c :: tl) ++ ['>', '>'])) =
      lookupKey (((c :: tl) ++ ['>']).take (((c :: tl) ++ ['>']).length - 1))
        ('<' :: 'S' :: '-' :: '<' :: ((c :: tl) ++ ['>', '>']))
        ⟨false, false, true⟩ := by
    rw [chord_to_key, t1, hs1]
    rfl
  have hR : chord_to_key ('<' :: 'S' :: '-' :: ((c :: tl) ++ ['>'])) =
      lookupKey (c :: tl) ('<' :: 'S' :: '-' :: ((c :: tl) ++ ['>']))
        ⟨false, false, true⟩ := by
    rw [chord_to_key, t2, hs2]
    show lookupKey (if c = '<' then tl.take (tl.length - 1) else c :: tl) _ _ = _
    rw [if_neg hcne]
  rw [hL, hR,
    show (((c :: tl) ++ ['>']).length - 1) = (c :: tl).length by simp,
    take_len_append]
  exact lookupKey_chars_irrelevant _ _ _ _ htab

/-- C10 witness: `<S-<F5>>` resolves to the same Key as `<S-F5>`. -/
theorem c10_witness :
    chord_to_key ['<', 'S', '-', '<', 'F', '5', '>', '>'] =
      chord_to_key ['<', 'S', '-', 'F', '5', '>'] :=
  (c10_bracket_unwrap ['F', '5'] (by decide) (by decide) (by decide)
    (by decide)).1

/-!
Sanity checks against the round-trip table in the source's test module
(`seq_serialization_round_trip`).
-/

/-- Rows of the source's round-trip test table, evaluated in the model. -/
theorem roundTripTable :
    parse ['<', 'C', '-', 't', '>'] =
      .ok [⟨KeyCode.Char 't', ⟨true, false, false⟩⟩] ∧
    parse ['<', 'C', '-', 't', '>', '<', 'S', '-', 'w', '>'] =
      .ok [⟨KeyCode.Char 't', ⟨true, false, false⟩⟩,
        ⟨KeyCode.Char 'w', ⟨false, false, true⟩⟩] ∧
    parse ['<', 'B', 'S', '>'] = .ok [⟨KeyCode.Backspace, KeyModifiers.NONE⟩] ∧
    parse ['<', 'C', '-', 'B', 'S', '>'] =
      .ok [⟨KeyCode.Backspace, ⟨true, false, false⟩⟩] ∧
    parse ['<', 'C', '-', 'S', '-', 'T', 'a', 'b', '>'] =
      .ok [⟨KeyCode.BackTab, ⟨true, false, true⟩⟩] ∧
    parse ['<', 'C', 'R', '>'] = .ok [⟨KeyCode.Enter, KeyModifiers.NONE⟩] ∧
    parse ['<', 'R', 'e', 't', 'u', 'r', 'n', '>'] =
      .ok [⟨KeyCode.Enter, KeyModifiers.NONE⟩] ∧
    parse ['<', 'g', 't', '>'] = .ok [⟨KeyCode.Char '>', KeyModifiers.NONE⟩] ∧
    parse ['<', 'C', '-', 'S', '-', 'l', 't', '>'] =
      .ok [⟨KeyCode.Char '<', ⟨true, false, true⟩⟩] ∧
    parse ['<', 'C', '-', 'A', '-', 'S', '-', '5', '>'] =
      .ok [⟨KeyCode.Char '5', ⟨true, true, true⟩⟩] ∧
    parse ['<', 'S', '-', '|', '>'] =
      .ok [⟨KeyCode.Char '|', ⟨false, false, true⟩⟩] ∧
    parse ['<', 'C', '-', 'S', 'p', 'a', 'c', 'e', '>'] =
      .ok [⟨KeyCode.Char ' ', ⟨true, false, false⟩⟩] ∧
    parse ['<', 'C', '-', 'A', '>'] =
      .ok [⟨KeyCode.Char 'A', ⟨true, false, true⟩⟩] ∧
    parse [] = .err .emptyInput :=
  ⟨rfl, rfl, rfl, rfl, rfl, rfl, rfl, rfl, rfl, rfl, rfl, rfl, rfl, rfl⟩

end Rmpc
